import Mathlib

/-!
Shallow embedding of the `SpatialFeatureDetector` module of this repository
(`src/unnamed/part_001`, lines 839-1313).  Coordinates are embedded as
rationals; the source's `Math.sqrt`-based distances are carried as squared
distances, together with bridge lemmas relating the comparisons and the
ordering used by the code (`sqrt d <= tol`, sort ascending by distance) to
their squared counterparts, which is exact because `Real.sqrt` is monotone.
The debounce timer map (`setTimeout`/`clearTimeout` on a single-threaded
event loop) is modelled with a manually advanced virtual clock.
-/

namespace OLSpatial

/-- A 2-D map coordinate (source: `number[]` pairs). -/
structure Coord where
  x : ℚ
  y : ℚ
deriving DecidableEq, Repr

/-- An axis-aligned extent `[minX, minY, maxX, maxY]` (source: `ol/extent`). -/
structure Extent where
  minX : ℚ
  minY : ℚ
  maxX : ℚ
  maxY : ℚ
deriving DecidableEq, Repr

/-- Extent of a nonempty coordinate list (ol's `getExtent` over coordinates).
The `[]` case is unreachable for well-formed geometries (ol requires >= 1
coordinate); we return a degenerate extent there. -/
def coordsExtent : List Coord → Extent
  | [] => ⟨0, 0, 0, 0⟩
  | c :: cs =>
    cs.foldl (fun e p => ⟨min e.minX p.x, min e.minY p.y, max e.maxX p.x, max e.maxY p.y⟩)
      ⟨c.x, c.y, c.x, c.y⟩

/-- Geometry, the closed tagged union over the runtime `instanceof` dispatch
of the source (`Point`, `LineString`, `Polygon`, and any other geometry,
which the source only ever touches through its extent). -/
inductive Geometry where
  | point (c : Coord)
  | lineString (coords : List Coord)
  | polygon (rings : List (List Coord))
  | other (extent : Extent)
deriving DecidableEq, Repr

/-- Extent of a geometry (ol `geometry.getExtent()`).  A polygon's extent is
computed over all of its rings' coordinates. -/
def Geometry.getExtent : Geometry → Extent
  | .point c => ⟨c.x, c.y, c.x, c.y⟩
  | .lineString coords => coordsExtent coords
  | .polygon rings => coordsExtent rings.flatten
  | .other e => e

/-- An ol `Feature`: reference identity is modelled by `id` (JS object
identity; the demo harness also assigns distinct string/number ids), and
`feature.getGeometry()` may be `undefined`, hence `Option`. -/
structure Feature where
  id : ℕ
  geometry : Option Geometry
deriving DecidableEq, Repr

/-- `IndexItem` of the source: a box, the owning feature, and (for segment
items) the two raw endpoints `segmentStart`/`segmentEnd`, which the source
always sets together; the unused `segmentIndex` field is dropped. -/
structure IndexItem where
  minX : ℚ
  minY : ℚ
  maxX : ℚ
  maxY : ℚ
  feature : Feature
  seg : Option (Coord × Coord) := none
deriving DecidableEq, Repr

/-- `indexLineString` (source lines 916-969): a line (or linear ring) with
at most 2 coordinates gets a single whole-extent item; otherwise one padded
item per consecutive coordinate pair plus the whole-extent item. -/
def indexLineString (feature : Feature) (coords : List Coord) : List IndexItem :=
  if coords.length ≤ 2 then
    let e := coordsExtent coords
    [{ minX := e.minX, minY := e.minY, maxX := e.maxX, maxY := e.maxY, feature := feature }]
  else
    ((coords.zip coords.tail).map (fun pq =>
      let minX := min pq.1.x pq.2.x
      let maxX := max pq.1.x pq.2.x
      let minY := min pq.1.y pq.2.y
      let maxY := max pq.1.y pq.2.y
      let padding := max (max ((maxX - minX) * (1/10)) ((maxY - minY) * (1/10))) (1/10000)
      { minX := minX - padding, minY := minY - padding,
        maxX := maxX + padding, maxY := maxY + padding,
        feature := feature, seg := some (pq.1, pq.2) }))
    ++ (let e := coordsExtent coords
        [{ minX := e.minX, minY := e.minY, maxX := e.maxX, maxY := e.maxY, feature := feature }])

/-- `indexPolygon` (source lines 974-995): index the exterior ring
(`getLinearRing(0)`, when present) like a line string, then additionally
push the full polygon extent. -/
def indexPolygon (feature : Feature) (rings : List (List Coord)) : List IndexItem :=
  (match rings.head? with
   | some ring => indexLineString feature ring
   | none => [])
  ++ (let e := Geometry.getExtent (.polygon rings)
      [{ minX := e.minX, minY := e.minY, maxX := e.maxX, maxY := e.maxY, feature := feature }])

/-- Items contributed by one feature in the `updateFeatures` loop
(source lines 885-907): missing geometry throws; `LineString` and `Polygon`
are decomposed, anything else gets a single whole-extent item. -/
def indexFeature (f : Feature) : Except String (List IndexItem) :=
  match f.geometry with
  | none => .error "Feature has no geometry"
  | some (.lineString coords) => .ok (indexLineString f coords)
  | some (.polygon rings) => .ok (indexPolygon f rings)
  | some g =>
    let e := g.getExtent
    .ok [{ minX := e.minX, minY := e.minY, maxX := e.maxX, maxY := e.maxY, feature := f }]

/-- The item list the `updateFeatures` loop accumulates, failing at the
first feature without a geometry (the partial list is never loaded). -/
def buildItems : List Feature → Except String (List IndexItem)
  | [] => .ok []
  | f :: fs =>
    match indexFeature f with
    | .error e => .error e
    | .ok its =>
      match buildItems fs with
      | .error e => .error e
      | .ok rest => .ok (its ++ rest)

/-- A pending debounce timer: the key into the `debounceTimers` map, the
virtual fire time (`call time + delay`), and the captured pixel and
hit tolerance (the source also captures the map reference; in the model the
view transform is supplied by the event-loop runner, see `advanceTo`). -/
structure PendingTimer where
  key : String
  fireTime : ℚ
  pixel : Coord
  hitTolerance : ℚ
deriving DecidableEq, Repr

/-- State of a `SpatialFeatureDetector`: the tracked feature list, the RBush
tree contents (modelled as the loaded item list; `search` filters it), and
the debounce timer map (at most one timer per key, kept as a list). -/
structure SpatialFeatureDetector where
  features : List Feature := []
  tree : List IndexItem := []
  debounceTimers : List PendingTimer := []
deriving DecidableEq, Repr

/-- `updateFeatures` (source lines 879-911).  The source first executes
`this.features = features` and `this.tree.clear()`, then builds the item
list, throwing at the first feature without geometry; `tree.load` runs only
on success.  The returned pair is (thrown error, detector state after the
call) — on error the state has the new feature list and a cleared tree. -/
def updateFeatures (d : SpatialFeatureDetector) (fs : List Feature) :
    Option String × SpatialFeatureDetector :=
  match buildItems fs with
  | .ok items => (none, { d with features := fs, tree := items })
  | .error e => (some e, { d with features := fs, tree := [] })

/-- RBush `search`: all items whose box intersects the query box
(inclusive comparisons, per rbush's `intersects`). -/
def search (tree : List IndexItem) (minX minY maxX maxY : ℚ) : List IndexItem :=
  tree.filter (fun it => it.minX ≤ maxX ∧ it.minY ≤ maxY ∧ it.maxX ≥ minX ∧ it.maxY ≥ minY)

/-- Squared Euclidean distance between two coordinates. -/
def sqDist (p q : Coord) : ℚ :=
  (p.x - q.x) * (p.x - q.x) + (p.y - q.y) * (p.y - q.y)

/-- `getDistanceToSegment` (source lines 1260-1288), squared: degenerate
segment collapses to point distance, otherwise distance to the projection
of the point onto the segment with the parameter clamped to `[0,1]`. -/
def getDistanceToSegmentSq (point segStart segEnd : Coord) : ℚ :=
  let dx := segEnd.x - segStart.x
  let dy := segEnd.y - segStart.y
  if dx = 0 ∧ dy = 0 then
    sqDist point segStart
  else
    let t := max 0 (min 1
      (((point.x - segStart.x) * dx + (point.y - segStart.y) * dy) / (dx * dx + dy * dy)))
    let projX := segStart.x + t * dx
    let projY := segStart.y + t * dy
    (point.x - projX) * (point.x - projX) + (point.y - projY) * (point.y - projY)

/-- `getDistanceToPoint` (source lines 1198-1203), squared. -/
def getDistanceToPointSq (coordinate c : Coord) : ℚ :=
  sqDist coordinate c

/-- `minDistance = Math.min(minDistance, q)` where `none` plays the role of
the initial `Infinity`. -/
def minD : Option ℚ → ℚ → Option ℚ
  | none, q => some q
  | some a, q => some (min a q)

/-- `getDistanceToLineString` (source lines 1208-1237), squared: minimum
over all segments (the source's early exit at 0 is a pure optimisation)
and then over all vertices; `none` is the initial `Infinity`. -/
def getDistanceToLineStringSq (coordinate : Coord) (coords : List Coord) : Option ℚ :=
  let segMin := ((coords.zip coords.tail).map
    (fun pq => getDistanceToSegmentSq coordinate pq.1 pq.2)).foldl minD none
  (coords.map (fun v => sqDist coordinate v)).foldl minD segMin

/-- Modelled from the spec: ol's `Polygon.intersectsCoordinate` (true
point-in-polygon test; the ol implementation is a third-party dependency,
not part of this repository's sources).  Even-odd ray casting on one ring. -/
def linearRingContainsXY (ring : List Coord) (p : Coord) : Bool :=
  match ring with
  | [] => false
  | c0 :: _ =>
    (ring.zip (ring.tail ++ [c0])).foldl
      (fun acc ab =>
        if (((ab.1.y ≤ p.y ∧ p.y < ab.2.y) ∨ (ab.2.y ≤ p.y ∧ p.y < ab.1.y)) ∧
            p.x < ab.1.x + (p.y - ab.1.y) / (ab.2.y - ab.1.y) * (ab.2.x - ab.1.x))
        then !acc else acc) false

/-- Modelled from the spec: ol polygon containment — the exterior ring
contains the coordinate and no hole does. -/
def intersectsCoordinate (rings : List (List Coord)) (p : Coord) : Bool :=
  match rings with
  | [] => false
  | ext :: holes => linearRingContainsXY ext p && holes.all (fun h => !linearRingContainsXY h p)

/-- `getDistanceToPolygon` (source lines 1242-1255), squared: `0` inside,
else line distance to the exterior ring; `Infinity` (`none`) without a ring. -/
def getDistanceToPolygonSq (coordinate : Coord) (rings : List (List Coord)) : Option ℚ :=
  if intersectsCoordinate rings coordinate then some 0
  else
    match rings.head? with
    | some ring => getDistanceToLineStringSq coordinate ring
    | none => none

/-- `getDistanceToFeature` (source lines 1166-1193), squared: dispatch on
the geometry kind; for other geometries `0` inside the extent, else the
distance to the nearest extent edge; `Infinity` (`none`) without a geometry. -/
def getDistanceToFeatureSq (coordinate : Coord) (feature : Feature) : Option ℚ :=
  match feature.geometry with
  | none => none
  | some (.point c) => some (getDistanceToPointSq coordinate c)
  | some (.lineString coords) => getDistanceToLineStringSq coordinate coords
  | some (.polygon rings) => getDistanceToPolygonSq coordinate rings
  | some (.other e) =>
    if e.minX ≤ coordinate.x ∧ coordinate.x ≤ e.maxX ∧
       e.minY ≤ coordinate.y ∧ coordinate.y ≤ e.maxY then some 0
    else
      let dx := max (e.minX - coordinate.x) (max 0 (coordinate.x - e.maxX))
      let dy := max (e.minY - coordinate.y) (max 0 (coordinate.y - e.maxY))
      some (dx * dx + dy * dy)

/-- Distance (squared) computed for one candidate in the detection loop
(source lines 1086-1096): segment items use the exact segment, others the
whole owning feature. -/
def candidateDistSq (coordinate : Coord) (item : IndexItem) : Option ℚ :=
  match item.seg with
  | some se => some (getDistanceToSegmentSq coordinate se.1 se.2)
  | none => getDistanceToFeatureSq coordinate item.feature

/-- One accepted hit of the scan: the feature and its recorded squared
distance (finite, since `Infinity <= tolerance` never holds). -/
structure Hit where
  feature : Feature
  distSq : ℚ
deriving DecidableEq, Repr

/-- The candidate scan of `detectFeaturesAtCoordinate` (source lines
1079-1105): skip candidates of already-seen features, keep a candidate when
`sqrt distSq <= tolerance` — embedded as `0 <= tolerance ∧ distSq <=
tolerance * tolerance`, see `sqrt_le_tolerance_iff` — and only then mark
the feature as seen. -/
def scanCandidates (coordinate : Coord) (tolerance : ℚ) :
    List IndexItem → List ℕ → List Hit
  | [], _ => []
  | c :: rest, seen =>
    if c.feature.id ∈ seen then scanCandidates coordinate tolerance rest seen
    else
      match candidateDistSq coordinate c with
      | none => scanCandidates coordinate tolerance rest seen
      | some q =>
        if 0 ≤ tolerance ∧ q ≤ tolerance * tolerance then
          ⟨c.feature, q⟩ :: scanCandidates coordinate tolerance rest (c.feature.id :: seen)
        else scanCandidates coordinate tolerance rest seen

/-- The hit list of `detectFeaturesAtCoordinate` just before features are
projected out: scan the candidates of the expanded query box, then sort
ascending by distance (the source's stable `.sort((a, b) => a.distance -
b.distance)`; sorting by squared distance is the same order). -/
def detectHitsAtCoordinate (d : SpatialFeatureDetector) (coordinate : Coord)
    (tolerance : ℚ) : List Hit :=
  let candidates := search d.tree (coordinate.x - tolerance) (coordinate.y - tolerance)
    (coordinate.x + tolerance) (coordinate.y + tolerance)
  List.insertionSort (fun a b => a.distSq ≤ b.distSq)
    (scanCandidates coordinate tolerance candidates [])

/-- `detectFeaturesAtCoordinate` (source lines 1061-1111). -/
def detectFeaturesAtCoordinate (d : SpatialFeatureDetector) (coordinate : Coord)
    (tolerance : ℚ) : List Feature :=
  (detectHitsAtCoordinate d coordinate tolerance).map Hit.feature

/-- The view/transform collaborator used by the pixel entry points:
`map.getCoordinateFromPixel` and the view resolution. -/
structure ViewTransform where
  getCoordinateFromPixel : Coord → Coord
  resolution : ℚ

/-- `detectFeaturesAtPixel` (source lines 1004-1017): convert the pixel and
the pixel tolerance (`hitTolerance * resolution`) and delegate. -/
def detectFeaturesAtPixel (d : SpatialFeatureDetector) (vt : ViewTransform)
    (pixel : Coord) (hitTolerance : ℚ) : List Feature :=
  detectFeaturesAtCoordinate d (vt.getCoordinateFromPixel pixel) (hitTolerance * vt.resolution)

/-- `detectFeaturesAtPixelDebounced` (source lines 1026-1053): clear any
existing timer for the key, then schedule a new one at `now + delay`
capturing the pixel and hit tolerance.  `now` is the virtual-clock time of
the call; nothing fires inside the call itself. -/
def detectFeaturesAtPixelDebounced (d : SpatialFeatureDetector) (now : ℚ)
    (pixel : Coord) (hitTolerance delay : ℚ) (key : String) : SpatialFeatureDetector :=
  { d with debounceTimers :=
      d.debounceTimers.filter (fun t => t.key ≠ key) ++
        [{ key := key, fireTime := now + delay, pixel := pixel, hitTolerance := hitTolerance }] }

/-- `clearDebounceTimers` (source lines 1158-1161): synchronously cancel
every pending timer. -/
def clearDebounceTimers (d : SpatialFeatureDetector) : SpatialFeatureDetector :=
  { d with debounceTimers := [] }

/-- A callback invocation observed by the caller: the key, the captured
pixel and hit tolerance, and the feature list computed at fire time. -/
structure FiredEvent where
  key : String
  pixel : Coord
  hitTolerance : ℚ
  result : List Feature
deriving DecidableEq, Repr

/-- Fire one timer: the timeout body of the source runs
`detectFeaturesAtPixel` on the captured pixel/options at fire time. -/
def fireTimer (vt : ViewTransform) (d : SpatialFeatureDetector)
    (t : PendingTimer) : FiredEvent :=
  { key := t.key, pixel := t.pixel, hitTolerance := t.hitTolerance,
    result := detectFeaturesAtPixel d vt t.pixel t.hitTolerance }

/-- Advance the virtual clock to `now`: every timer whose fire time has been
reached fires (and removes itself from the map, as the timeout body does). -/
def advanceTo (vt : ViewTransform) (d : SpatialFeatureDetector) (now : ℚ) :
    SpatialFeatureDetector × List FiredEvent :=
  ({ d with debounceTimers := d.debounceTimers.filter (fun t => ¬ t.fireTime ≤ now) },
   (d.debounceTimers.filter (fun t => t.fireTime ≤ now)).map (fireTimer vt d))

/-- One debounced call of a scenario: its virtual-clock time, pixel and
hit tolerance. -/
structure DebouncedCall where
  time : ℚ
  pixel : Coord
  hitTolerance : ℚ
deriving DecidableEq, Repr

/-- One event-loop step of a debounce scenario: advance the clock to the
call's time (firing whatever is due), then let the call reschedule its
key. -/
def debounceStep (vt : ViewTransform) (key : String) (delay : ℚ)
    (acc : SpatialFeatureDetector × List FiredEvent) (c : DebouncedCall) :
    SpatialFeatureDetector × List FiredEvent :=
  (detectFeaturesAtPixelDebounced (advanceTo vt acc.1 c.time).1 c.time c.pixel
      c.hitTolerance delay key,
   acc.2 ++ (advanceTo vt acc.1 c.time).2)

/-- Run a debounce scenario on the single-threaded event loop: before each
call the clock advances to the call's time (firing whatever is due), then
the call schedules; finally the clock advances to `stop`.  Returns the
final detector state and every callback fired, in order. -/
def runDebounceScenario (vt : ViewTransform) (d0 : SpatialFeatureDetector)
    (key : String) (delay : ℚ) (calls : List DebouncedCall) (stop : ℚ) :
    SpatialFeatureDetector × List FiredEvent :=
  let mid := calls.foldl (debounceStep vt key delay) (d0, [])
  ((advanceTo vt mid.1 stop).1, mid.2 ++ (advanceTo vt mid.1 stop).2)

/-- The last call of a nonempty scenario `cprev :: calls`. -/
def lastCall : DebouncedCall → List DebouncedCall → DebouncedCall
  | c, [] => c
  | _, c :: rest => lastCall c rest

/-- The point feature and the line feature of the spec's concrete scenario
(section 8): one point at the origin, one line from `(10,0)` to `(10,10)`. -/
def ptFeature : Feature := ⟨0, some (.point ⟨0, 0⟩)⟩

def lnFeature : Feature := ⟨1, some (.lineString [⟨10, 0⟩, ⟨10, 10⟩])⟩

def demoDetector : SpatialFeatureDetector :=
  (updateFeatures {} [ptFeature, lnFeature]).2

/-- A detector indexing exactly one point feature at coordinate `c`. -/
def pointDetector (c : Coord) : SpatialFeatureDetector :=
  (updateFeatures {} [⟨0, some (.point c)⟩]).2

/-- Projection parameter of `P` onto the infinite line through `A, B`
(the spec's formula; identical to the source's `t` before clamping). -/
def projParam (p a b : Coord) : ℚ :=
  ((p.x - a.x) * (b.x - a.x) + (p.y - a.y) * (b.y - a.y)) /
    ((b.x - a.x) * (b.x - a.x) + (b.y - a.y) * (b.y - a.y))

/-- Clamp to `[0, 1]`. -/
def clamp01 (t : ℚ) : ℚ := max 0 (min 1 t)

/-- The projection of `P` onto the segment `A B` with the parameter clamped
to `[0, 1]`. -/
def projPoint (p a b : Coord) : Coord :=
  ⟨a.x + clamp01 (projParam p a b) * (b.x - a.x),
   a.y + clamp01 (projParam p a b) * (b.y - a.y)⟩

/-- The spec's wording of the point-to-segment distance (squared), stated
independently of the source: distance to the clamped projection, with the
degenerate segment `A = B` collapsing to the point distance to `A`.  Used
only to compare against `getDistanceToSegmentSq`. -/
def specSegmentDistSq (p a b : Coord) : ℚ :=
  if a = b then sqDist p a else sqDist p (projPoint p a b)

/-- A feature without a geometry (an upstream contract breach). -/
def badFeature : Feature := ⟨5, none⟩

/-- A triangle ring with 4 coordinates (3 consecutive pairs). -/
def polyRing : List Coord := [⟨0, 0⟩, ⟨4, 0⟩, ⟨4, 4⟩, ⟨0, 0⟩]

/-- A polygon feature over `polyRing`. -/
def polyFeature : Feature := ⟨7, some (.polygon [polyRing])⟩

/-- A 3-coordinate line (2 consecutive pairs), for witnesses. -/
def lineThree : List Coord := [⟨0, 0⟩, ⟨2, 0⟩, ⟨2, 2⟩]

/-- The identity view transform with resolution 1, for witnesses. -/
def vtId : ViewTransform := ⟨fun p => p, 1⟩

/-- First debounced call of the coalescing witness scenario. -/
def hoverCall0 : DebouncedCall := ⟨0, ⟨0, 0⟩, 5⟩

/-- The four follow-up debounced calls of the coalescing witness scenario,
each arriving 10 time units after the previous one (well inside the 50-unit
delay window). -/
def hoverRest : List DebouncedCall :=
  [⟨10, ⟨1, 1⟩, 5⟩, ⟨20, ⟨2, 2⟩, 5⟩, ⟨30, ⟨3, 3⟩, 5⟩, ⟨40, ⟨4, 4⟩, 5⟩]

/-! ## Supporting lemmas -/

/-- The source compares `Math.sqrt(distSq) <= tolerance`; over the reals
this is the same Boolean as the embedded comparison
`0 <= tolerance ∧ distSq <= tolerance * tolerance`. -/
theorem sqrt_le_tolerance_iff (q t : ℚ) :
    Real.sqrt (q : ℝ) ≤ (t : ℝ) ↔ 0 ≤ t ∧ q ≤ t * t := by
  rw [Real.sqrt_le_iff]
  constructor
  · rintro ⟨h1, h2⟩
    refine ⟨by exact_mod_cast h1, ?_⟩
    rw [sq] at h2
    exact_mod_cast h2
  · rintro ⟨h1, h2⟩
    refine ⟨by exact_mod_cast h1, ?_⟩
    rw [sq]
    exact_mod_cast h2

/-- The candidate scan never emits two hits for the same feature identity,
and every emitted hit is for a feature not in the incoming `seen` set. -/
theorem scanCandidates_ids_nodup (coordinate : Coord) (tolerance : ℚ) :
    ∀ (cands : List IndexItem) (seen : List ℕ),
      ((scanCandidates coordinate tolerance cands seen).map
        (fun h => h.feature.id)).Nodup ∧
      ∀ h ∈ scanCandidates coordinate tolerance cands seen, h.feature.id ∉ seen := by
  intro cands
  induction cands with
  | nil => intro seen; simp [scanCandidates]
  | cons c rest ih =>
    intro seen
    by_cases hseen : c.feature.id ∈ seen
    · simpa [scanCandidates, hseen] using ih seen
    · cases hdist : candidateDistSq coordinate c with
      | none => simpa [scanCandidates, hseen, hdist] using ih seen
      | some q =>
        by_cases htol : 0 ≤ tolerance ∧ q ≤ tolerance * tolerance
        · have ihs := ih (c.feature.id :: seen)
          refine ⟨?_, ?_⟩
          · simp only [scanCandidates, if_neg hseen, hdist, if_pos htol, List.map_cons,
              List.nodup_cons]
            refine ⟨fun hmem => ?_, ihs.1⟩
            obtain ⟨h, hh, hid⟩ := List.mem_map.1 hmem
            exact (ihs.2 h hh) (hid ▸ List.mem_cons_self _ _)
          · intro h hmem
            simp only [scanCandidates, if_neg hseen, hdist, if_pos htol,
              List.mem_cons] at hmem
            rcases hmem with rfl | hmem
            · exact hseen
            · exact fun hs => (ihs.2 h hmem) (List.mem_cons_of_mem _ hs)
        · simpa [scanCandidates, hseen, hdist, htol] using ih seen

/-- If any feature of the list is missing its geometry, the rebuild loop
throws (the same message whichever feature is hit first). -/
theorem buildItems_error_of_missing :
    ∀ (fs : List Feature) (f : Feature), f ∈ fs → f.geometry = none →
      buildItems fs = .error "Feature has no geometry"
  | [], f, hf, _ => absurd hf (List.not_mem_nil f)
  | g :: rest, f, hf, hg => by
    rcases List.mem_cons.1 hf with rfl | hmem
    · simp [buildItems, indexFeature, hg]
    · cases hgeo : g.geometry with
      | none => simp [buildItems, indexFeature, hgeo]
      | some gg =>
        have hrest := buildItems_error_of_missing rest f hmem hg
        cases gg <;> simp [buildItems, indexFeature, hgeo, hrest]

/-- A detector with an empty tree returns no features for any query. -/
theorem detect_empty_tree (d : SpatialFeatureDetector) (hd : d.tree = [])
    (c : Coord) (tol : ℚ) : detectFeaturesAtCoordinate d c tol = [] := by
  simp [detectFeaturesAtCoordinate, detectHitsAtCoordinate, search, hd, scanCandidates,
    List.insertionSort]

/-- Every line-string decomposition contains an item owned by the feature. -/
theorem indexLineString_mem (f : Feature) (cs : List Coord) :
    ∃ it ∈ indexLineString f cs, it.feature = f := by
  unfold indexLineString
  by_cases h : cs.length ≤ 2
  · rw [if_pos h]
    exact ⟨_, List.mem_singleton_self _, rfl⟩
  · rw [if_neg h]
    exact ⟨_, List.mem_append_right _ (List.mem_singleton_self _), rfl⟩

/-- Every polygon decomposition contains an item owned by the feature. -/
theorem indexPolygon_mem (f : Feature) (rs : List (List Coord)) :
    ∃ it ∈ indexPolygon f rs, it.feature = f := by
  unfold indexPolygon
  exact ⟨_, List.mem_append_right _ (List.mem_singleton_self _), rfl⟩

/-- A successfully indexed feature contributes at least one item, owned by
itself. -/
theorem indexFeature_mem (f : Feature) (its : List IndexItem)
    (h : indexFeature f = .ok its) : ∃ it ∈ its, it.feature = f := by
  cases hgeo : f.geometry with
  | none => simp [indexFeature, hgeo] at h
  | some g =>
    cases g with
    | point c =>
      simp only [indexFeature, hgeo, Except.ok.injEq] at h
      exact ⟨_, h ▸ List.mem_singleton_self _, rfl⟩
    | lineString coords =>
      simp only [indexFeature, hgeo, Except.ok.injEq] at h
      exact h ▸ indexLineString_mem f coords
    | polygon rings =>
      simp only [indexFeature, hgeo, Except.ok.injEq] at h
      exact h ▸ indexPolygon_mem f rings
    | other e =>
      simp only [indexFeature, hgeo, Except.ok.injEq] at h
      exact ⟨_, h ▸ List.mem_singleton_self _, rfl⟩

/-- Every feature of a successful bulk build owns at least one loaded
item. -/
theorem buildItems_mem :
    ∀ (fs : List Feature) (items : List IndexItem), buildItems fs = .ok items →
      ∀ g ∈ fs, ∃ it ∈ items, it.feature = g
  | [], _, _, g, hg => absurd hg (List.not_mem_nil g)
  | f :: rest, items, h, g, hg => by
    cases hif : indexFeature f with
    | error e => simp [buildItems, hif] at h
    | ok its =>
      cases hb : buildItems rest with
      | error e => simp [buildItems, hif, hb] at h
      | ok restItems =>
        simp only [buildItems, hif, hb, Except.ok.injEq] at h
        rcases List.mem_cons.1 hg with rfl | hmem
        · obtain ⟨it, hit, hfeat⟩ := indexFeature_mem g its hif
          exact ⟨it, h ▸ List.mem_append_left _ hit, hfeat⟩
        · obtain ⟨it, hit, hfeat⟩ := buildItems_mem rest restItems hb g hmem
          exact ⟨it, h ▸ List.mem_append_right _ hit, hfeat⟩

instance : IsTotal Hit (fun a b => a.distSq ≤ b.distSq) :=
  ⟨fun a b => le_total a.distSq b.distSq⟩

instance : IsTrans Hit (fun a b => a.distSq ≤ b.distSq) :=
  ⟨fun _ _ _ h1 h2 => le_trans h1 h2⟩

/-! ## Claims -/

/-- C3: for the feature set of one point at the origin and one line from
`(10,0)` to `(10,10)`: querying `(0, 0.5)` with tolerance `1` returns
exactly the point feature, whose computed exact distance is `0.5`
(squared `1/4`); querying `(10, 5)` with tolerance `0.5` returns exactly
the line feature at exact distance `0`; querying `(5, 5)` with tolerance
`1` returns the empty sequence. -/
theorem detect_concrete_scenario :
    detectFeaturesAtCoordinate demoDetector ⟨0, 1/2⟩ 1 = [ptFeature] ∧
    detectHitsAtCoordinate demoDetector ⟨0, 1/2⟩ 1 = [⟨ptFeature, 1/4⟩] ∧
    Real.sqrt ((1/4 : ℚ) : ℝ) = 1/2 ∧
    detectFeaturesAtCoordinate demoDetector ⟨10, 5⟩ (1/2) = [lnFeature] ∧
    detectHitsAtCoordinate demoDetector ⟨10, 5⟩ (1/2) = [⟨lnFeature, 0⟩] ∧
    Real.sqrt ((0 : ℚ) : ℝ) = 0 ∧
    detectFeaturesAtCoordinate demoDetector ⟨5, 5⟩ 1 = [] := by
  have h1 : detectHitsAtCoordinate demoDetector ⟨0, 1/2⟩ 1 = [⟨ptFeature, 1/4⟩] := by
    norm_num [detectHitsAtCoordinate, demoDetector, updateFeatures, buildItems, indexFeature,
      ptFeature, lnFeature, indexLineString, coordsExtent, Geometry.getExtent, search,
      scanCandidates, candidateDistSq, getDistanceToFeatureSq, getDistanceToPointSq,
      getDistanceToLineStringSq, getDistanceToSegmentSq, sqDist, minD,
      List.insertionSort, List.orderedInsert, List.filter, List.foldl, List.zip, List.zipWith]
  have h2 : detectHitsAtCoordinate demoDetector ⟨10, 5⟩ (1/2) = [⟨lnFeature, 0⟩] := by
    norm_num [detectHitsAtCoordinate, demoDetector, updateFeatures, buildItems, indexFeature,
      ptFeature, lnFeature, indexLineString, coordsExtent, Geometry.getExtent, search,
      scanCandidates, candidateDistSq, getDistanceToFeatureSq, getDistanceToPointSq,
      getDistanceToLineStringSq, getDistanceToSegmentSq, sqDist, minD,
      List.insertionSort, List.orderedInsert, List.filter, List.foldl, List.zip, List.zipWith]
  have h3 : detectHitsAtCoordinate demoDetector ⟨5, 5⟩ 1 = [] := by
    norm_num [detectHitsAtCoordinate, demoDetector, updateFeatures, buildItems, indexFeature,
      ptFeature, lnFeature, indexLineString, coordsExtent, Geometry.getExtent, search,
      scanCandidates, candidateDistSq, getDistanceToFeatureSq, getDistanceToPointSq,
      getDistanceToLineStringSq, getDistanceToSegmentSq, sqDist, minD,
      List.insertionSort, List.orderedInsert, List.filter, List.foldl, List.zip, List.zipWith]
  refine ⟨?_, h1, ?_, ?_, h2, ?_, ?_⟩
  · rw [detectFeaturesAtCoordinate, h1]; rfl
  · rw [show ((1/4 : ℚ) : ℝ) = (1/2 : ℝ)^2 by norm_num, Real.sqrt_sq (by norm_num)]
  · rw [detectFeaturesAtCoordinate, h2]; rfl
  · simp
  · rw [detectFeaturesAtCoordinate, h3]; rfl

/-- C7: the point-to-segment distance of the detector equals the Euclidean
distance from `P` to the projection of `P` onto the line through `A, B`
with the parameter clamped to `[0,1]`, and for the degenerate segment
`A = B` it equals the distance from `P` to `A` (both facts packaged in
`specSegmentDistSq`, stated from the spec's wording). -/
theorem segment_distance_is_clamped_projection (p a b : Coord) :
    getDistanceToSegmentSq p a b = specSegmentDistSq p a b ∧
    Real.sqrt ((getDistanceToSegmentSq p a b : ℚ) : ℝ) =
      Real.sqrt ((specSegmentDistSq p a b : ℚ) : ℝ) := by
  have h : getDistanceToSegmentSq p a b = specSegmentDistSq p a b := by
    by_cases hab : a = b
    · subst hab
      simp [getDistanceToSegmentSq, specSegmentDistSq]
    · have hne : ¬(b.x - a.x = 0 ∧ b.y - a.y = 0) := by
        rintro ⟨h1, h2⟩
        apply hab
        cases a; cases b
        simp only [Coord.mk.injEq]
        constructor <;> linarith
      simp only [getDistanceToSegmentSq, specSegmentDistSq, if_neg hne, if_neg hab,
        projPoint, projParam, clamp01, sqDist]
  exact ⟨h, by rw [h]⟩

/-- C4: for a detector indexing one point feature at coordinate `C` and any
non-negative tolerance `t`, `detectFeaturesAtCoordinate P t` includes the
feature iff the Euclidean distance from `P` to `C` is at most `t` (strict
`<=` boundary semantics), and querying at `C` with tolerance `0` returns
exactly the feature with computed distance `0`. -/
theorem point_tolerance_boundary (c p : Coord) (t : ℚ) (ht : 0 ≤ t) :
    ((⟨0, some (.point c)⟩ : Feature) ∈
        detectFeaturesAtCoordinate (pointDetector c) p t ↔
      Real.sqrt ((sqDist p c : ℚ) : ℝ) ≤ (t : ℝ)) ∧
    detectFeaturesAtCoordinate (pointDetector c) c 0 = [⟨0, some (.point c)⟩] ∧
    detectHitsAtCoordinate (pointDetector c) c 0 = [⟨⟨0, some (.point c)⟩, 0⟩] := by
  have htree : (pointDetector c).tree =
      [{ minX := c.x, minY := c.y, maxX := c.x, maxY := c.y,
         feature := ⟨0, some (.point c)⟩, seg := none }] := rfl
  have hdistc : candidateDistSq p
      { minX := c.x, minY := c.y, maxX := c.x, maxY := c.y,
        feature := ⟨0, some (.point c)⟩, seg := none } = some (sqDist p c) := rfl
  have hmem : (⟨0, some (.point c)⟩ : Feature) ∈
      detectFeaturesAtCoordinate (pointDetector c) p t ↔
      (0 ≤ t ∧ sqDist p c ≤ t * t) := by
    by_cases hbox : c.x ≤ p.x + t ∧ c.y ≤ p.y + t ∧ c.x ≥ p.x - t ∧ c.y ≥ p.y - t
    · have hsearch : search (pointDetector c).tree (p.x - t) (p.y - t) (p.x + t) (p.y + t)
          = [{ minX := c.x, minY := c.y, maxX := c.x, maxY := c.y,
               feature := ⟨0, some (.point c)⟩, seg := none }] := by
        unfold search
        rw [htree]
        simp only [List.filter_cons, List.filter_nil, decide_eq_true_eq]
        rw [if_pos hbox]
      by_cases hd : sqDist p c ≤ t * t
      · have hhits : detectHitsAtCoordinate (pointDetector c) p t =
            [⟨⟨0, some (.point c)⟩, sqDist p c⟩] := by
          simp [detectHitsAtCoordinate, hsearch, scanCandidates, hdistc, ht, hd,
            List.insertionSort, List.orderedInsert]
        simp [detectFeaturesAtCoordinate, hhits, ht, hd]
      · have hhits : detectHitsAtCoordinate (pointDetector c) p t = [] := by
          simp [detectHitsAtCoordinate, hsearch, scanCandidates, hdistc, hd,
            List.insertionSort]
        simp [detectFeaturesAtCoordinate, hhits, hd]
    · have hnd : ¬ sqDist p c ≤ t * t := by
        intro hd
        apply hbox
        simp only [sqDist] at hd
        refine ⟨?_, ?_, ?_, ?_⟩ <;>
          nlinarith [mul_self_nonneg (p.x - c.x), mul_self_nonneg (p.y - c.y), ht, hd]
      have hsearch : search (pointDetector c).tree (p.x - t) (p.y - t) (p.x + t) (p.y + t)
          = [] := by
        unfold search
        rw [htree]
        simp only [List.filter_cons, List.filter_nil, decide_eq_true_eq]
        rw [if_neg hbox]
      simp [detectFeaturesAtCoordinate, detectHitsAtCoordinate, hsearch, scanCandidates,
        List.insertionSort, hnd]
  have hbox0 : c.x ≤ c.x + 0 ∧ c.y ≤ c.y + 0 ∧ c.x ≥ c.x - 0 ∧ c.y ≥ c.y - 0 := by
    refine ⟨?_, ?_, ?_, ?_⟩ <;> linarith
  have hsearch0 : search (pointDetector c).tree (c.x - 0) (c.y - 0) (c.x + 0) (c.y + 0)
      = [{ minX := c.x, minY := c.y, maxX := c.x, maxY := c.y,
           feature := ⟨0, some (.point c)⟩, seg := none }] := by
    unfold search
    rw [htree]
    simp only [List.filter_cons, List.filter_nil, decide_eq_true_eq]
    rw [if_pos hbox0]
  have h0 : sqDist c c = 0 := by simp [sqDist]
  have hhits0 : detectHitsAtCoordinate (pointDetector c) c 0 =
      [⟨⟨0, some (.point c)⟩, 0⟩] := by
    have hdist0 : candidateDistSq c
        { minX := c.x, minY := c.y, maxX := c.x, maxY := c.y,
          feature := ⟨0, some (.point c)⟩, seg := none } = some (sqDist c c) := rfl
    simp only [detectHitsAtCoordinate]
    rw [hsearch0]
    simp [scanCandidates, hdist0, h0, List.insertionSort, List.orderedInsert]
  refine ⟨?_, ?_, hhits0⟩
  · rw [sqrt_le_tolerance_iff]
    exact hmem
  · rw [detectFeaturesAtCoordinate, hhits0]
    rfl

/-- C4 witness: the boundary iff at `C = (0,0)`, `P = (3,4)`, `t = 5`, and
the tolerance-zero query at `C`. -/
theorem point_tolerance_boundary_witness :
    ((⟨0, some (.point ⟨0, 0⟩)⟩ : Feature) ∈
        detectFeaturesAtCoordinate (pointDetector ⟨0, 0⟩) ⟨3, 4⟩ 5 ↔
      Real.sqrt ((sqDist ⟨3, 4⟩ ⟨0, 0⟩ : ℚ) : ℝ) ≤ (5 : ℝ)) ∧
    detectFeaturesAtCoordinate (pointDetector ⟨0, 0⟩) ⟨0, 0⟩ 0 =
      [⟨0, some (.point ⟨0, 0⟩)⟩] ∧
    detectHitsAtCoordinate (pointDetector ⟨0, 0⟩) ⟨0, 0⟩ 0 =
      [⟨⟨0, some (.point ⟨0, 0⟩)⟩, 0⟩] :=
  point_tolerance_boundary ⟨0, 0⟩ ⟨3, 4⟩ 5 (by norm_num)

/-- C5: for every detector state, query coordinate and tolerance, the
sequence returned by `detectFeaturesAtCoordinate` contains each feature (by
identity) at most once, no matter how many of the feature's segment items
are candidates. -/
theorem detect_no_duplicate_features (d : SpatialFeatureDetector) (c : Coord) (tol : ℚ) :
    ((detectFeaturesAtCoordinate d c tol).map Feature.id).Nodup := by
  have hperm :
      List.Perm (detectHitsAtCoordinate d c tol)
        (scanCandidates c tol
          (search d.tree (c.x - tol) (c.y - tol) (c.x + tol) (c.y + tol)) []) :=
    List.perm_insertionSort _ _
  have hnodup := (scanCandidates_ids_nodup c tol
    (search d.tree (c.x - tol) (c.y - tol) (c.x + tol) (c.y + tol)) []).1
  have hmap : (detectFeaturesAtCoordinate d c tol).map Feature.id =
      (detectHitsAtCoordinate d c tol).map (fun h => h.feature.id) := by
    simp [detectFeaturesAtCoordinate, List.map_map, Function.comp]
  rw [hmap]
  exact ((hperm.map (fun h => h.feature.id)).nodup_iff).2 hnodup

/-- C6: the hit list behind `detectFeaturesAtCoordinate` is sorted
non-decreasing in the computed distance (equivalently in its square), and
the returned feature sequence is exactly that sorted hit list's features —
nearest first. -/
theorem detect_sorted_by_distance (d : SpatialFeatureDetector) (c : Coord) (tol : ℚ) :
    List.Sorted (fun a b : Hit => a.distSq ≤ b.distSq) (detectHitsAtCoordinate d c tol) ∧
    (detectHitsAtCoordinate d c tol).Pairwise
      (fun a b => Real.sqrt ((a.distSq : ℚ) : ℝ) ≤ Real.sqrt ((b.distSq : ℚ) : ℝ)) ∧
    detectFeaturesAtCoordinate d c tol = (detectHitsAtCoordinate d c tol).map Hit.feature := by
  have hs : List.Sorted (fun a b : Hit => a.distSq ≤ b.distSq)
      (detectHitsAtCoordinate d c tol) :=
    List.sorted_insertionSort _ _
  exact ⟨hs, hs.imp (fun h => Real.sqrt_le_sqrt (by exact_mod_cast h)), rfl⟩

/-- C8: rebuild idempotence — calling `updateFeatures` twice in succession
with the same feature sequence yields a detector whose
`detectFeaturesAtCoordinate` results are identical to those after a single
call, for every query coordinate and tolerance. -/
theorem updateFeatures_rebuild_idempotent (d : SpatialFeatureDetector) (fs : List Feature)
    (c : Coord) (tol : ℚ) :
    detectFeaturesAtCoordinate (updateFeatures (updateFeatures d fs).2 fs).2 c tol =
      detectFeaturesAtCoordinate (updateFeatures d fs).2 c tol := by
  cases h : buildItems fs <;> simp [updateFeatures, h]

/-- C10: after `clearDebounceTimers` no previously scheduled debounced
callback fires no matter how far the clock advances, the detector keeps no
pending timer, and clearing repeatedly (also with nothing pending) is
idempotent. -/
theorem clearDebounceTimers_cancellation (vt : ViewTransform)
    (d : SpatialFeatureDetector) (now : ℚ) :
    (advanceTo vt (clearDebounceTimers d) now).2 = [] ∧
    (advanceTo vt (clearDebounceTimers d) now).1 = clearDebounceTimers d ∧
    clearDebounceTimers (clearDebounceTimers d) = clearDebounceTimers d :=
  ⟨rfl, rfl, rfl⟩

/-- C1 counterexample: `updateFeatures` replaces the feature list and
clears the tree before validating geometries, so a failing call does NOT
leave the index in its prior valid state.  Concretely: a detector indexing
the origin point answers the origin query with that feature; after a
failed `updateFeatures` with a geometry-less feature, the same query
returns the empty sequence. -/
theorem updateFeatures_failure_counterexample :
    detectFeaturesAtCoordinate (updateFeatures {} [ptFeature]).2 ⟨0, 0⟩ 0 = [ptFeature] ∧
    (updateFeatures (updateFeatures {} [ptFeature]).2 [badFeature]).1 =
      some "Feature has no geometry" ∧
    (updateFeatures (updateFeatures {} [ptFeature]).2 [badFeature]).2.tree = [] ∧
    detectFeaturesAtCoordinate
      (updateFeatures (updateFeatures {} [ptFeature]).2 [badFeature]).2 ⟨0, 0⟩ 0 = [] := by
  have h1 : detectHitsAtCoordinate (updateFeatures {} [ptFeature]).2 ⟨0, 0⟩ 0 =
      [⟨ptFeature, 0⟩] := by
    norm_num [detectHitsAtCoordinate, updateFeatures, buildItems, indexFeature,
      ptFeature, Geometry.getExtent, search, scanCandidates, candidateDistSq,
      getDistanceToFeatureSq, getDistanceToPointSq, sqDist,
      List.insertionSort, List.orderedInsert, List.filter]
  refine ⟨?_, rfl, rfl, rfl⟩
  rw [detectFeaturesAtCoordinate, h1]
  rfl

/-- C1 (amended): a feature without geometry makes `updateFeatures` fail
synchronously with the InvalidGeometry error, and no partial index is
committed (`tree.load` never runs); but the state is NOT rolled back to its
prior value: the tracked feature list is replaced with the new sequence,
the index is left cleared, and every subsequent query returns the empty
sequence (debounce timers are untouched). -/
theorem updateFeatures_failure_state (d : SpatialFeatureDetector) (fs : List Feature)
    (f : Feature) (hf : f ∈ fs) (hg : f.geometry = none) :
    (updateFeatures d fs).1 = some "Feature has no geometry" ∧
    (updateFeatures d fs).2.features = fs ∧
    (updateFeatures d fs).2.tree = [] ∧
    (updateFeatures d fs).2.debounceTimers = d.debounceTimers ∧
    ∀ c tol, detectFeaturesAtCoordinate (updateFeatures d fs).2 c tol = [] := by
  have herr := buildItems_error_of_missing fs f hf hg
  exact ⟨by simp [updateFeatures, herr], by simp [updateFeatures, herr],
    by simp [updateFeatures, herr], by simp [updateFeatures, herr],
    fun c tol => detect_empty_tree _ (by simp [updateFeatures, herr]) c tol⟩

/-- C1 witness: the amended statement evaluated on the one-element feature
list holding only the geometry-less feature. -/
theorem updateFeatures_failure_state_witness :
    (updateFeatures {} [badFeature]).1 = some "Feature has no geometry" ∧
    (updateFeatures {} [badFeature]).2.features = [badFeature] ∧
    (updateFeatures {} [badFeature]).2.tree = [] ∧
    (updateFeatures {} [badFeature]).2.debounceTimers = [] ∧
    detectFeaturesAtCoordinate (updateFeatures {} [badFeature]).2 ⟨1, 2⟩ 3 = [] := by
  obtain ⟨h1, h2, h3, h4, h5⟩ :=
    updateFeatures_failure_state {} [badFeature] badFeature (by simp) rfl
  exact ⟨h1, h2, h3, h4, h5 ⟨1, 2⟩ 3⟩

/-- C2 counterexample: the polygon feature over a 4-coordinate exterior
ring (3 consecutive coordinate pairs) contributes 5 index items — 3
segment items, the ring whole-extent item, and additionally the polygon
whole-extent item — not the `3 + 1` items the claim predicts for it. -/
theorem polygon_item_count_counterexample :
    (updateFeatures {} [polyFeature]).1 = none ∧
    (updateFeatures {} [polyFeature]).2.tree.length = 5 ∧
    ¬ (updateFeatures {} [polyFeature]).2.tree.length = (polyRing.length - 1) + 1 :=
  ⟨rfl, rfl, by decide⟩

/-- C2 (amended): after a successful `updateFeatures`, every feature
contributes at least one index item; a line string with more than 2
coordinates contributes exactly one segment item per consecutive
coordinate pair plus one whole-extent item; a line string with at most 2
coordinates contributes only the single whole-extent item; a polygon whose
exterior ring has more than 2 coordinates contributes one segment item per
consecutive ring coordinate pair plus TWO whole-extent items (the ring
extent and the polygon extent). -/
theorem index_item_counts (d : SpatialFeatureDetector) (fs : List Feature)
    (f : Feature) (cs : List Coord) (r : List Coord) (rs : List (List Coord)) :
    ((updateFeatures d fs).1 = none →
      ∀ g ∈ fs, ∃ it ∈ (updateFeatures d fs).2.tree, it.feature = g) ∧
    (2 < cs.length →
      ((indexLineString f cs).filter (fun it => it.seg.isSome)).length = cs.length - 1 ∧
      ((indexLineString f cs).filter (fun it => it.seg.isNone)).length = 1) ∧
    (cs.length ≤ 2 →
      indexLineString f cs =
        [{ minX := (coordsExtent cs).minX, minY := (coordsExtent cs).minY,
           maxX := (coordsExtent cs).maxX, maxY := (coordsExtent cs).maxY,
           feature := f }]) ∧
    (2 < r.length →
      ((indexPolygon f (r :: rs)).filter (fun it => it.seg.isSome)).length = r.length - 1 ∧
      ((indexPolygon f (r :: rs)).filter (fun it => it.seg.isNone)).length = 2) := by
  have hline : ∀ (g : Feature) (csl : List Coord), 2 < csl.length →
      ((indexLineString g csl).filter (fun it => it.seg.isSome)).length = csl.length - 1 ∧
      ((indexLineString g csl).filter (fun it => it.seg.isNone)).length = 1 := by
    intro g csl hlen
    have hnotle : ¬ csl.length ≤ 2 := not_le.2 hlen
    unfold indexLineString
    rw [if_neg hnotle]
    constructor
    · simp [List.filter_append, List.filter_map, Function.comp_def, Option.isSome_some,
        Option.isSome_none, List.filter_true, List.length_append, List.length_map,
        List.length_zip, List.length_tail, Nat.min_eq_right (Nat.sub_le csl.length 1)]
    · simp [List.filter_append, List.filter_map, Function.comp_def, Option.isNone_some,
        Option.isNone_none, List.filter_false]
  refine ⟨?_, hline f cs, ?_, ?_⟩
  · intro hok g hg
    cases hb : buildItems fs with
    | error e => simp [updateFeatures, hb] at hok
    | ok items =>
      have htree : (updateFeatures d fs).2.tree = items := by simp [updateFeatures, hb]
      rw [htree]
      exact buildItems_mem fs items hb g hg
  · intro hle
    unfold indexLineString
    rw [if_pos hle]
  · intro hlen
    have hfilter := hline f r hlen
    unfold indexPolygon
    constructor
    · simp only [List.head?_cons, List.filter_append]
      simp [hfilter.1]
    · simp only [List.head?_cons, List.filter_append]
      simp [hfilter.2, Nat.add_comm]

/-- C2 witness: the amended counts evaluated on the concrete point, line
and polygon features. -/
theorem index_item_counts_witness :
    (∃ it ∈ (updateFeatures {} [ptFeature]).2.tree, it.feature = ptFeature) ∧
    ((indexLineString lnFeature lineThree).filter (fun it => it.seg.isSome)).length = 2 ∧
    ((indexLineString lnFeature lineThree).filter (fun it => it.seg.isNone)).length = 1 ∧
    indexLineString lnFeature [⟨0, 0⟩, ⟨10, 0⟩] =
      [{ minX := (coordsExtent [⟨0, 0⟩, ⟨10, 0⟩]).minX,
         minY := (coordsExtent [⟨0, 0⟩, ⟨10, 0⟩]).minY,
         maxX := (coordsExtent [⟨0, 0⟩, ⟨10, 0⟩]).maxX,
         maxY := (coordsExtent [⟨0, 0⟩, ⟨10, 0⟩]).maxY,
         feature := lnFeature }] ∧
    ((indexPolygon polyFeature [polyRing]).filter (fun it => it.seg.isSome)).length = 3 ∧
    ((indexPolygon polyFeature [polyRing]).filter (fun it => it.seg.isNone)).length = 2 := by
  have hA := (index_item_counts {} [ptFeature] lnFeature lineThree polyRing []).1
    rfl ptFeature (by simp)
  have hB := (index_item_counts {} [ptFeature] lnFeature lineThree polyRing []).2.1
    (by decide)
  have hC := (index_item_counts {} [ptFeature] lnFeature [⟨0, 0⟩, ⟨10, 0⟩] polyRing
    []).2.2.1 (by decide)
  have hD := (index_item_counts {} [ptFeature] lnFeature lineThree polyRing []).2.2.2
    (by decide)
  exact ⟨hA, hB.1.trans (by decide), hB.2, hC, hD.1.trans (by decide), hD.2⟩

/-- Folding further debounced calls for one key over a state whose only
pending timer belongs to the previous call: as long as every call arrives
before the pending fire time, nothing fires and the single timer always
carries the most recent call's capture. -/
theorem debounce_foldl_aux (vt : ViewTransform) (key : String) (delay : ℚ) :
    ∀ (calls : List DebouncedCall) (cprev : DebouncedCall)
      (d : SpatialFeatureDetector) (evs : List FiredEvent),
      d.debounceTimers = [⟨key, cprev.time + delay, cprev.pixel, cprev.hitTolerance⟩] →
      List.Chain' (fun x y => x.time ≤ y.time ∧ y.time < x.time + delay) (cprev :: calls) →
      calls.foldl (debounceStep vt key delay) (d, evs) =
        ({ d with debounceTimers :=
            [⟨key, (lastCall cprev calls).time + delay, (lastCall cprev calls).pixel,
              (lastCall cprev calls).hitTolerance⟩] }, evs)
  | [], cprev, d, evs, hd, _ => by
    simp only [List.foldl_nil, lastCall]
    rw [← hd]
  | c :: rest, cprev, d, evs, hd, hchain => by
    obtain ⟨hR, hchain'⟩ := List.chain'_cons.1 hchain
    have hnotle : ¬ (cprev.time + delay ≤ c.time) := not_le.2 hR.2
    have hstep : debounceStep vt key delay (d, evs) c =
        ({ d with debounceTimers :=
            [⟨key, c.time + delay, c.pixel, c.hitTolerance⟩] }, evs) := by
      simp [debounceStep, advanceTo, detectFeaturesAtPixelDebounced, hd, hnotle]
    rw [List.foldl_cons, hstep,
      debounce_foldl_aux vt key delay rest c _ evs rfl hchain']
    rfl

/-- C9: if several debounced calls are issued with the same key, each
arriving strictly before the previously scheduled delay elapses, then once
the clock passes the last scheduled fire time exactly one callback has
fired for that key, carrying the pixel and hit tolerance captured by the
last call and the feature list computed from them at fire time; every
earlier pending task was cancelled and never fires. -/
theorem debounce_coalescing (vt : ViewTransform) (d0 : SpatialFeatureDetector)
    (key : String) (delay stop : ℚ) (c0 : DebouncedCall) (rest : List DebouncedCall)
    (hd0 : d0.debounceTimers = [])
    (hchain : List.Chain' (fun x y => x.time ≤ y.time ∧ y.time < x.time + delay)
      (c0 :: rest))
    (hstop : (lastCall c0 rest).time + delay ≤ stop) :
    (runDebounceScenario vt d0 key delay (c0 :: rest) stop).2 =
      [⟨key, (lastCall c0 rest).pixel, (lastCall c0 rest).hitTolerance,
        detectFeaturesAtPixel d0 vt (lastCall c0 rest).pixel
          (lastCall c0 rest).hitTolerance⟩] ∧
    (runDebounceScenario vt d0 key delay (c0 :: rest) stop).1.debounceTimers = [] := by
  have hstep0 : debounceStep vt key delay (d0, []) c0 =
      ({ d0 with debounceTimers :=
          [⟨key, c0.time + delay, c0.pixel, c0.hitTolerance⟩] }, []) := by
    simp [debounceStep, advanceTo, detectFeaturesAtPixelDebounced, hd0]
  have hfold := debounce_foldl_aux vt key delay rest c0
    { d0 with debounceTimers := [⟨key, c0.time + delay, c0.pixel, c0.hitTolerance⟩] }
    [] rfl hchain
  constructor
  · show (runDebounceScenario vt d0 key delay (c0 :: rest) stop).2 = _
    simp only [runDebounceScenario, List.foldl_cons, hstep0, hfold]
    simp [advanceTo, hstop, fireTimer]
    rfl
  · simp only [runDebounceScenario, List.foldl_cons, hstep0, hfold]
    simp [advanceTo, hstop]

/-- C9 witness: five debounced calls with key `hover` at times
`0, 10, 20, 30, 40` against a 50-unit delay produce exactly one fired
callback, carrying the fifth call's pixel `(4,4)` and tolerance `5` (the
empty detector yields the empty feature list). -/
theorem debounce_coalescing_witness :
    (runDebounceScenario vtId {} "hover" 50 (hoverCall0 :: hoverRest) 1000).2 =
      [⟨"hover", ⟨4, 4⟩, 5, []⟩] ∧
    (runDebounceScenario vtId {} "hover" 50 (hoverCall0 :: hoverRest) 1000).1.debounceTimers
      = [] := by
  have h := debounce_coalescing vtId {} "hover" 50 1000 hoverCall0 hoverRest rfl
    (by norm_num [hoverCall0, hoverRest, List.chain'_cons])
    (by norm_num [hoverCall0, hoverRest, lastCall])
  refine ⟨?_, h.2⟩
  rw [h.1]
  norm_num [hoverCall0, hoverRest, lastCall, detectFeaturesAtPixel, vtId,
    detectFeaturesAtCoordinate, detectHitsAtCoordinate, search, scanCandidates,
    List.insertionSort]

end OLSpatial
